import Mathlib

/-!
Verification of `SymCryptDhSecretAgreement` (src/lib/dh.c).

The file embeds the DH secret-agreement routine shallowly in Lean. The
routine's external collaborators (the multi-precision arithmetic engine,
allocator, wipe, encoder) are not part of the excerpt; they are either
parameters of an environment record (quantified over in the theorems) or
definitions modelled from the spec, each marked as such.  Machine
integers are modelled as `Nat`; the memory side effects that the claims
talk about (allocation, wiping, freeing of the scratch buffer) are
recorded as an explicit event trace in the result.
-/

set_option autoImplicit false

namespace SymCrypt

/-- The status codes of `SYMCRYPT_ERROR` used by `SymCryptDhSecretAgreement`
and its callees.  `SYMCRYPT_WRONG_BLOCK_SIZE` is the code the source returns
for a destination-size mismatch (the spec calls this status `WrongOutputSize`);
`BUFFER_TOO_SMALL` and `NOT_IMPLEMENTED` stand in for statuses that the
output-encoding primitive may report. -/
inductive SYMCRYPT_ERROR where
  | NO_ERROR
  | WRONG_BLOCK_SIZE
  | INVALID_ARGUMENT
  | MEMORY_ALLOCATION_FAILURE
  | INVALID_BLOB
  | BUFFER_TOO_SMALL
  | NOT_IMPLEMENTED
  deriving DecidableEq, Repr

/-- Numeric output formats accepted by the encoding primitive
(`SYMCRYPT_NUMBER_FORMAT` in the source). -/
inductive SYMCRYPT_NUMBER_FORMAT where
  | LSB_FIRST
  | MSB_FIRST
  deriving DecidableEq, Repr

/-- A DH group descriptor (`SYMCRYPT_DLGROUP`): prime modulus `P`, generator
`G`, optional subgroup order `Q`, and the precomputed sizing metadata the
source reads (`nBitsOfP`, `nDigitsOfP`, and the byte size of the public-key
serialization, which `SymCryptDlkeySizeofPublicKey` returns). -/
structure SYMCRYPT_DLGROUP where
  P : Nat
  G : Nat
  Q : Option Nat
  nBitsOfP : Nat
  nDigitsOfP : Nat
  cbPrimeP : Nat
  deriving DecidableEq, Repr

/-- A DH key (`SYMCRYPT_DLKEY`): its group, whether a private exponent is
present, whether that exponent is reduced modulo the subgroup order
(`fPrivateModQ`), the declared private bit-length (`nBitsPriv`), the private
exponent value (`piPrivateKey`) and the public element value
(`pePublicKey`, an integer in `[0, P)`). -/
structure SYMCRYPT_DLKEY where
  pDlgroup : SYMCRYPT_DLGROUP
  fHasPrivateKey : Bool
  fPrivateModQ : Bool
  nBitsPriv : Nat
  piPrivateKey : Nat
  pePublicKey : Nat
  deriving DecidableEq, Repr

/-- Modelled from the spec: `SymCryptDlgroupIsSame` (not in the excerpt)
compares the two group descriptors for identity — "byte-for-byte /
structurally, not merely numerically equal".  In a value model, pointer
identity and byte-for-byte identity coincide with structural equality. -/
def SymCryptDlgroupIsSame (g1 g2 : SYMCRYPT_DLGROUP) : Bool :=
  g1 == g2

/-- Modelled from the spec: `SymCryptDlkeySizeofPublicKey` (not in the
excerpt) returns the group's public-key serialization size, the byte size
of the prime modulus `P`. -/
def SymCryptDlkeySizeofPublicKey (pkKey : SYMCRYPT_DLKEY) : Nat :=
  pkKey.pDlgroup.cbPrimeP

/-- Modelled from the spec: `SymCryptModExp` (not in the excerpt) is the
constant-time modular exponentiation primitive.  The `nBitsExp` parameter
controls how many exponent bits drive the square-and-multiply loop, so the
computed value is `peBase ^ (exp mod 2^nBitsExp) mod P`. -/
def SymCryptModExp (P peBase exp nBitsExp : Nat) : Nat :=
  peBase ^ (exp % 2 ^ nBitsExp) % P

/-- Modelled from the spec: `SymCryptModElementIsZero` (not in the excerpt)
tests whether a group element is the additive identity. -/
def SymCryptModElementIsZero (_P v : Nat) : Bool :=
  v == 0

/-- One interaction with the scratch-memory lifecycle, as instrumented by
the embedding: a successful allocation of `size` bytes
(`SymCryptCallbackAlloc`), a wipe of the first `size` bytes of the buffer
with zeros (`SymCryptWipe`, modelled from the spec as overwriting with the
fixed pattern zero), and the release of the buffer whose contents at free
time are `contents` (`SymCryptCallbackFree`). -/
inductive MemEvent where
  | alloc (size : Nat)
  | wipe (size : Nat)
  | free (contents : List Nat)
  deriving DecidableEq, Repr

/-- Whether a memory event is a successful allocation. -/
def MemEvent.isAlloc : MemEvent → Bool
  | .alloc _ => true
  | _ => false

/-- The external collaborators of `SymCryptDhSecretAgreement` that the
excerpt only calls: the per-modulus sizing queries (keyed on the digit
count of the group's modulus), whether `SymCryptCallbackAlloc` succeeds,
and the output-encoding primitive `SymCryptModElementGetValue`, which maps
the modulus, the element value, the requested format and the destination
length to a status and the bytes it leaves in the destination buffer. -/
structure DhEnv where
  sizeofModElementFromModulus : Nat → Nat
  scratchBytesForModExp : Nat → Nat
  scratchBytesForCommonModOperations : Nat → Nat
  allocOk : Bool
  getValue : Nat → Nat → SYMCRYPT_NUMBER_FORMAT → Nat → SYMCRYPT_ERROR × List Nat

/-- The observable outcome of one call to `SymCryptDhSecretAgreement`:
the returned status, the destination buffer's contents after the call,
the trace of scratch-memory events, and two instrumented intermediate
values — the byte size passed to `SymCryptCallbackAlloc` (`none` when the
call returned before the allocation call) and the exponent bit-length
passed to `SymCryptModExp` (`none` when the call returned before the
exponentiation). -/
structure DH_RESULT where
  scError : SYMCRYPT_ERROR
  pbAgreedSecret : List Nat
  trace : List MemEvent
  cbScratchRequested : Option Nat
  nBitsOfExpUsed : Option Nat
  deriving DecidableEq, Repr

/-- Shallow embedding of `SymCryptDhSecretAgreement` (src/lib/dh.c,
lines 84–207).  The destination buffer is the list `pbAgreedSecret`;
its length plays the role of the `cbAgreedSecret` parameter (the
`_Out_writes_(cbAgreedSecret)` contract makes the two coincide).  The
`goto cleanup` paths become the early returns; the cleanup block's
wipe-then-free of an allocated buffer becomes the trace suffix
`[alloc cb, wipe cb, free (replicate cb 0)]`, and on paths where
`pbScratch == NULL` the trace is empty. -/
def SymCryptDhSecretAgreement (env : DhEnv) (pkPrivate pkPublic : SYMCRYPT_DLKEY)
    (format : SYMCRYPT_NUMBER_FORMAT) (flags : Nat)
    (pbAgreedSecret : List Nat) : DH_RESULT :=
  let cbAgreedSecret := pbAgreedSecret.length
  -- Make sure we only specify the correct flags and that there is a private key
  if flags != 0 || !pkPrivate.fHasPrivateKey then
    ⟨.INVALID_ARGUMENT, pbAgreedSecret, [], none, none⟩
  -- Check that the group is the same for both keys
  else if !(SymCryptDlgroupIsSame pkPrivate.pDlgroup pkPublic.pDlgroup) then
    ⟨.INVALID_ARGUMENT, pbAgreedSecret, [], none, none⟩
  else
    let pDlgroup := pkPrivate.pDlgroup
    -- Check the output buffer has the correct size
    if cbAgreedSecret != SymCryptDlkeySizeofPublicKey pkPrivate then
      ⟨.WRONG_BLOCK_SIZE, pbAgreedSecret, [], none, none⟩
    else
      -- Objects and scratch space size calculation
      let cbModelement := env.sizeofModElementFromModulus pDlgroup.nDigitsOfP
      let cbScratch := cbModelement +
        max (env.scratchBytesForModExp pDlgroup.nDigitsOfP)
            (env.scratchBytesForCommonModOperations pDlgroup.nDigitsOfP)
      -- Scratch space allocation
      if !env.allocOk then
        ⟨.MEMORY_ALLOCATION_FAILURE, pbAgreedSecret, [], some cbScratch, none⟩
      else
        let cleanupTrace :=
          [MemEvent.alloc cbScratch, MemEvent.wipe cbScratch,
           MemEvent.free (List.replicate cbScratch 0)]
        -- Fix the bits of the exponent
        let nBitsOfExp :=
          if pkPrivate.fPrivateModQ then pkPrivate.nBitsPriv else pDlgroup.nBitsOfP
        -- Calculate the secret
        let peRes := SymCryptModExp pDlgroup.P pkPublic.pePublicKey
            pkPrivate.piPrivateKey nBitsOfExp
        -- Check if the result is zero
        if SymCryptModElementIsZero pDlgroup.P peRes then
          ⟨.INVALID_BLOB, pbAgreedSecret, cleanupTrace, some cbScratch, some nBitsOfExp⟩
        else
          -- Output the result
          let gv := env.getValue pDlgroup.P peRes format cbAgreedSecret
          ⟨gv.1, gv.2, cleanupTrace, some cbScratch, some nBitsOfExp⟩

/-- Big-endian fixed-width byte string of a natural number
(most significant byte first). -/
def natToBytesBE : Nat → Nat → List Nat
  | 0, _ => []
  | n + 1, v => natToBytesBE n (v / 256) ++ [v % 256]

/-- Modelled from the spec: a compliant instance of the output-encoding
primitive `SymCryptModElementGetValue` (not in the excerpt), used to build
concrete environments.  It serializes the element into a fixed-width byte
string in the caller-specified format, and reports an error when the value
does not fit the destination. -/
def dhModelGetValue (_P v : Nat) (format : SYMCRYPT_NUMBER_FORMAT) (cb : Nat) :
    SYMCRYPT_ERROR × List Nat :=
  if v < 256 ^ cb then
    match format with
    | .MSB_FIRST => (.NO_ERROR, natToBytesBE cb v)
    | .LSB_FIRST => (.NO_ERROR, (natToBytesBE cb v).reverse)
  else (.BUFFER_TOO_SMALL, List.replicate cb 0)

/-- A concrete environment for evaluating the embedding: arbitrary
per-digit sizing formulas, a succeeding allocator, and the modelled
encoder. -/
def dhTestEnv : DhEnv where
  sizeofModElementFromModulus := fun d => 4 * d
  scratchBytesForModExp := fun d => 32 * d
  scratchBytesForCommonModOperations := fun d => 16 * d
  allocOk := true
  getValue := dhModelGetValue

/-- A concrete test group: P = 23, G = 5, subgroup order Q = 11. -/
def dhTestGroup : SYMCRYPT_DLGROUP where
  P := 23
  G := 5
  Q := some 11
  nBitsOfP := 5
  nDigitsOfP := 1
  cbPrimeP := 1

/-- Party A's key in the test group: private exponent 6 (held modulo P,
so `fPrivateModQ = false`), public element 5^6 mod 23 = 8. -/
def dhTestKeyA : SYMCRYPT_DLKEY where
  pDlgroup := dhTestGroup
  fHasPrivateKey := true
  fPrivateModQ := false
  nBitsPriv := 0
  piPrivateKey := 6
  pePublicKey := 8

/-- Party B's key in the test group: private exponent 15 (subgroup-order
reduced, declared 4 bits), public element 5^15 mod 23 = 19. -/
def dhTestKeyB : SYMCRYPT_DLKEY where
  pDlgroup := dhTestGroup
  fHasPrivateKey := true
  fPrivateModQ := true
  nBitsPriv := 4
  piPrivateKey := 15
  pePublicKey := 19

/-- The scratch-size formula of the spec: the byte size of one group element
for the modulus plus the larger of the modular-exponentiation scratch
requirement and the common-modular-operations scratch requirement. -/
def dhScratchSize (env : DhEnv) (pDlgroup : SYMCRYPT_DLGROUP) : Nat :=
  env.sizeofModElementFromModulus pDlgroup.nDigitsOfP +
    max (env.scratchBytesForModExp pDlgroup.nDigitsOfP)
        (env.scratchBytesForCommonModOperations pDlgroup.nDigitsOfP)

/-- The cleanup-block trace of a call whose scratch allocation of `cb` bytes
succeeded: the allocation, the wipe of the full extent, and the release of
the all-zero buffer. -/
def dhCleanupTrace (cb : Nat) : List MemEvent :=
  [MemEvent.alloc cb, MemEvent.wipe cb, MemEvent.free (List.replicate cb 0)]

/-- The exponent bit-length policy of the source: the key's declared private
bit-length when the exponent is subgroup-order-reduced, the full bit-length
of the modulus otherwise. -/
def dhNBitsOfExp (pkPrivate : SYMCRYPT_DLKEY) : Nat :=
  if pkPrivate.fPrivateModQ then pkPrivate.nBitsPriv else pkPrivate.pDlgroup.nBitsOfP

/-- The group element computed by the exponentiation stage. -/
def dhSecretValue (pkPrivate pkPublic : SYMCRYPT_DLKEY) : Nat :=
  SymCryptModExp pkPrivate.pDlgroup.P pkPublic.pePublicKey pkPrivate.piPrivateKey
    (dhNBitsOfExp pkPrivate)

/-- A public key equal to zero in the test group, to drive the
exponentiation to a zero result. -/
def dhTestKeyZero : SYMCRYPT_DLKEY := { dhTestKeyB with pePublicKey := 0 }

/-- A key bound to a structurally different group (different generator). -/
def dhTestKeyOtherGroup : SYMCRYPT_DLKEY :=
  { dhTestKeyB with pDlgroup := { dhTestGroup with G := 2 } }

/-- An environment whose encoding primitive always reports
`NOT_IMPLEMENTED`, modelling an unsupported output format. -/
def dhTestEnvBadFormat : DhEnv :=
  { dhTestEnv with getValue := fun _ _ _ cb => (.NOT_IMPLEMENTED, List.replicate cb 0) }

theorem dh_flags_or_nopriv_eq (env : DhEnv)
    (pkPrivate pkPublic : SYMCRYPT_DLKEY) (format : SYMCRYPT_NUMBER_FORMAT)
    (flags : Nat) (buf : List Nat)
    (h : flags ≠ 0 ∨ pkPrivate.fHasPrivateKey = false) :
    SymCryptDhSecretAgreement env pkPrivate pkPublic format flags buf =
      ⟨.INVALID_ARGUMENT, buf, [], none, none⟩ := by
  rcases h with h | h <;> simp [SymCryptDhSecretAgreement, h]

theorem dh_group_mismatch_eq (env : DhEnv)
    (pkPrivate pkPublic : SYMCRYPT_DLKEY) (format : SYMCRYPT_NUMBER_FORMAT)
    (flags : Nat) (buf : List Nat)
    (h : pkPrivate.pDlgroup ≠ pkPublic.pDlgroup) :
    SymCryptDhSecretAgreement env pkPrivate pkPublic format flags buf =
      ⟨.INVALID_ARGUMENT, buf, [], none, none⟩ := by
  unfold SymCryptDhSecretAgreement
  by_cases h1 : (flags != 0 || !pkPrivate.fHasPrivateKey) = true <;>
    simp [h1, SymCryptDlgroupIsSame, h]

theorem dh_wrong_size_eq (env : DhEnv)
    (pkPrivate pkPublic : SYMCRYPT_DLKEY) (format : SYMCRYPT_NUMBER_FORMAT)
    (buf : List Nat)
    (h2 : pkPrivate.fHasPrivateKey = true)
    (h3 : pkPrivate.pDlgroup = pkPublic.pDlgroup)
    (h4 : buf.length ≠ SymCryptDlkeySizeofPublicKey pkPrivate) :
    SymCryptDhSecretAgreement env pkPrivate pkPublic format 0 buf =
      ⟨.WRONG_BLOCK_SIZE, buf, [], none, none⟩ := by
  simp [SymCryptDhSecretAgreement, SymCryptDlgroupIsSame, h2, h3, h4]

theorem dh_alloc_failure_eq (env : DhEnv)
    (pkPrivate pkPublic : SYMCRYPT_DLKEY) (format : SYMCRYPT_NUMBER_FORMAT)
    (buf : List Nat)
    (h2 : pkPrivate.fHasPrivateKey = true)
    (h3 : pkPrivate.pDlgroup = pkPublic.pDlgroup)
    (h4 : buf.length = SymCryptDlkeySizeofPublicKey pkPrivate)
    (h5 : env.allocOk = false) :
    SymCryptDhSecretAgreement env pkPrivate pkPublic format 0 buf =
      ⟨.MEMORY_ALLOCATION_FAILURE, buf, [],
        some (dhScratchSize env pkPrivate.pDlgroup), none⟩ := by
  unfold SymCryptDhSecretAgreement
  simp [SymCryptDlgroupIsSame, h2, h3, h4, h5, dhScratchSize]

theorem dh_happy_path (env : DhEnv) (pkPrivate pkPublic : SYMCRYPT_DLKEY)
    (format : SYMCRYPT_NUMBER_FORMAT) (buf : List Nat)
    (h2 : pkPrivate.fHasPrivateKey = true)
    (h3 : pkPrivate.pDlgroup = pkPublic.pDlgroup)
    (h4 : buf.length = SymCryptDlkeySizeofPublicKey pkPrivate)
    (h5 : env.allocOk = true) :
    SymCryptDhSecretAgreement env pkPrivate pkPublic format 0 buf =
      if SymCryptModElementIsZero pkPrivate.pDlgroup.P (dhSecretValue pkPrivate pkPublic) then
        ⟨.INVALID_BLOB, buf, dhCleanupTrace (dhScratchSize env pkPrivate.pDlgroup),
          some (dhScratchSize env pkPrivate.pDlgroup), some (dhNBitsOfExp pkPrivate)⟩
      else
        ⟨(env.getValue pkPrivate.pDlgroup.P (dhSecretValue pkPrivate pkPublic) format buf.length).1,
         (env.getValue pkPrivate.pDlgroup.P (dhSecretValue pkPrivate pkPublic) format buf.length).2,
         dhCleanupTrace (dhScratchSize env pkPrivate.pDlgroup),
         some (dhScratchSize env pkPrivate.pDlgroup), some (dhNBitsOfExp pkPrivate)⟩ := by
  unfold SymCryptDhSecretAgreement
  simp [SymCryptDlgroupIsSame, h2, h3, h4, h5, dhScratchSize, dhCleanupTrace,
    dhNBitsOfExp, dhSecretValue]

theorem dh_trace_shape (env : DhEnv)
    (pkPrivate pkPublic : SYMCRYPT_DLKEY) (format : SYMCRYPT_NUMBER_FORMAT)
    (flags : Nat) (buf : List Nat) :
    (SymCryptDhSecretAgreement env pkPrivate pkPublic format flags buf).trace = [] ∨
    ∃ cb, (SymCryptDhSecretAgreement env pkPrivate pkPublic format flags buf).trace =
      dhCleanupTrace cb := by
  simp only [SymCryptDhSecretAgreement]
  split
  · exact Or.inl rfl
  split
  · exact Or.inl rfl
  split
  · exact Or.inl rfl
  split
  · exact Or.inl rfl
  split <;> split <;> exact Or.inr ⟨_, rfl⟩

theorem dh_pow_comm (P g a b : Nat) :
    (g ^ b % P) ^ a % P = (g ^ a % P) ^ b % P := by
  rw [← Nat.pow_mod, ← Nat.pow_mod, ← pow_mul, ← pow_mul, Nat.mul_comm]

/-- C1: on every return path, if the scratch buffer was allocated then the
entire scratch extent is overwritten with zero (the wipe covers the full
allocated size, and the buffer freed is all-zero over that size) before it
is released; and every call that returns before a successful allocation
performs no wipe and no free. -/
theorem C1_scratch_wiped_on_all_paths (env : DhEnv)
    (pkPrivate pkPublic : SYMCRYPT_DLKEY) (format : SYMCRYPT_NUMBER_FORMAT)
    (flags : Nat) (buf : List Nat) :
    (∀ cb, MemEvent.alloc cb ∈
        (SymCryptDhSecretAgreement env pkPrivate pkPublic format flags buf).trace →
      (SymCryptDhSecretAgreement env pkPrivate pkPublic format flags buf).trace =
        [MemEvent.alloc cb, MemEvent.wipe cb,
         MemEvent.free (List.replicate cb 0)]) ∧
    ((∀ cb, MemEvent.alloc cb ∉
        (SymCryptDhSecretAgreement env pkPrivate pkPublic format flags buf).trace) →
      (SymCryptDhSecretAgreement env pkPrivate pkPublic format flags buf).trace = []) := by
  rcases dh_trace_shape env pkPrivate pkPublic format flags buf with h | ⟨cb, h⟩
  · rw [h]
    exact ⟨fun cb hcb => absurd hcb (by simp), fun _ => rfl⟩
  · rw [h]
    constructor
    · intro cb' hcb'
      simp [dhCleanupTrace] at hcb'
      simp [dhCleanupTrace, hcb']
    · intro hno
      exact absurd (hno cb) (by simp [dhCleanupTrace])

/-- C2: every call that reaches the exponentiation stage passes to
`SymCryptModExp` the private key's declared bit-length when the key is
flagged subgroup-order-reduced and the full bit-length of the modulus
otherwise; and the selection is independent of the numeric value of the
private exponent. -/
theorem C2_exponent_bitlength_policy (env : DhEnv)
    (pkPrivate pkPublic : SYMCRYPT_DLKEY) (format : SYMCRYPT_NUMBER_FORMAT)
    (buf : List Nat)
    (h2 : pkPrivate.fHasPrivateKey = true)
    (h3 : pkPrivate.pDlgroup = pkPublic.pDlgroup)
    (h4 : buf.length = SymCryptDlkeySizeofPublicKey pkPrivate)
    (h5 : env.allocOk = true) :
    (SymCryptDhSecretAgreement env pkPrivate pkPublic format 0 buf).nBitsOfExpUsed =
      some (if pkPrivate.fPrivateModQ then pkPrivate.nBitsPriv
            else pkPrivate.pDlgroup.nBitsOfP) ∧
    (∀ x y : Nat,
      (SymCryptDhSecretAgreement env { pkPrivate with piPrivateKey := x }
        pkPublic format 0 buf).nBitsOfExpUsed =
      (SymCryptDhSecretAgreement env { pkPrivate with piPrivateKey := y }
        pkPublic format 0 buf).nBitsOfExpUsed) := by
  constructor
  · rw [dh_happy_path env pkPrivate pkPublic format buf h2 h3 h4 h5]
    split <;> rfl
  · intro x y
    rw [dh_happy_path env { pkPrivate with piPrivateKey := x } pkPublic format buf h2 h3 h4 h5,
        dh_happy_path env { pkPrivate with piPrivateKey := y } pkPublic format buf h2 h3 h4 h5]
    split <;> split <;> rfl

/-- C3: when the element computed by the exponentiation is zero, the call
returns `INVALID_BLOB` and aborts before output encoding, leaving the
destination buffer untouched. -/
theorem C3_zero_result_rejected (env : DhEnv)
    (pkPrivate pkPublic : SYMCRYPT_DLKEY) (format : SYMCRYPT_NUMBER_FORMAT)
    (buf : List Nat)
    (h2 : pkPrivate.fHasPrivateKey = true)
    (h3 : pkPrivate.pDlgroup = pkPublic.pDlgroup)
    (h4 : buf.length = SymCryptDlkeySizeofPublicKey pkPrivate)
    (h5 : env.allocOk = true)
    (hz : dhSecretValue pkPrivate pkPublic = 0) :
    (SymCryptDhSecretAgreement env pkPrivate pkPublic format 0 buf).scError =
      .INVALID_BLOB ∧
    (SymCryptDhSecretAgreement env pkPrivate pkPublic format 0 buf).pbAgreedSecret =
      buf := by
  rw [dh_happy_path env pkPrivate pkPublic format buf h2 h3 h4 h5]
  simp [SymCryptModElementIsZero, hz]

/-- C4: a call with a non-zero flags word, or whose private-bearing key has
no private exponent present, returns `INVALID_ARGUMENT` before any
allocation or arithmetic, with no side effects: the destination buffer is
untouched, no memory event occurs, no allocation is requested and no
exponentiation happens. -/
theorem C4_flags_or_missing_private_key (env : DhEnv)
    (pkPrivate pkPublic : SYMCRYPT_DLKEY) (format : SYMCRYPT_NUMBER_FORMAT)
    (flags : Nat) (buf : List Nat)
    (h : flags ≠ 0 ∨ pkPrivate.fHasPrivateKey = false) :
    SymCryptDhSecretAgreement env pkPrivate pkPublic format flags buf =
      ⟨.INVALID_ARGUMENT, buf, [], none, none⟩ :=
  dh_flags_or_nopriv_eq env pkPrivate pkPublic format flags buf h

/-- C5: a call whose two keys reference structurally different groups
returns `INVALID_ARGUMENT` before any allocation, with no side effects. -/
theorem C5_group_mismatch (env : DhEnv)
    (pkPrivate pkPublic : SYMCRYPT_DLKEY) (format : SYMCRYPT_NUMBER_FORMAT)
    (flags : Nat) (buf : List Nat)
    (h : pkPrivate.pDlgroup ≠ pkPublic.pDlgroup) :
    SymCryptDhSecretAgreement env pkPrivate pkPublic format flags buf =
      ⟨.INVALID_ARGUMENT, buf, [], none, none⟩ :=
  dh_group_mismatch_eq env pkPrivate pkPublic format flags buf h

/-- C6: a call that passes the flags, private-key and group checks but whose
destination length differs from the group's public-key serialization size
returns `WRONG_BLOCK_SIZE` (the status the spec calls `WrongOutputSize`)
without requesting any scratch allocation. -/
theorem C6_wrong_output_size (env : DhEnv)
    (pkPrivate pkPublic : SYMCRYPT_DLKEY) (format : SYMCRYPT_NUMBER_FORMAT)
    (buf : List Nat)
    (h2 : pkPrivate.fHasPrivateKey = true)
    (h3 : pkPrivate.pDlgroup = pkPublic.pDlgroup)
    (h4 : buf.length ≠ SymCryptDlkeySizeofPublicKey pkPrivate) :
    SymCryptDhSecretAgreement env pkPrivate pkPublic format 0 buf =
      ⟨.WRONG_BLOCK_SIZE, buf, [], none, none⟩ :=
  dh_wrong_size_eq env pkPrivate pkPublic format buf h2 h3 h4

/-- C7: a call that passes validation requests exactly one scratch
allocation whose size is one group element for the modulus plus the larger
of the modular-exponentiation and common-modular-operations scratch
requirements; a successful allocation appears exactly once in the trace
with that size, and a failed allocation makes the call return
`MEMORY_ALLOCATION_FAILURE` with no partial state. -/
theorem C7_scratch_sizing_and_single_allocation (env : DhEnv)
    (pkPrivate pkPublic : SYMCRYPT_DLKEY) (format : SYMCRYPT_NUMBER_FORMAT)
    (buf : List Nat)
    (h2 : pkPrivate.fHasPrivateKey = true)
    (h3 : pkPrivate.pDlgroup = pkPublic.pDlgroup)
    (h4 : buf.length = SymCryptDlkeySizeofPublicKey pkPrivate) :
    (SymCryptDhSecretAgreement env pkPrivate pkPublic format 0 buf).cbScratchRequested =
      some (dhScratchSize env pkPrivate.pDlgroup) ∧
    (env.allocOk = true →
      ((SymCryptDhSecretAgreement env pkPrivate pkPublic format 0 buf).trace.filter
        MemEvent.isAlloc) =
        [MemEvent.alloc (dhScratchSize env pkPrivate.pDlgroup)]) ∧
    (env.allocOk = false →
      SymCryptDhSecretAgreement env pkPrivate pkPublic format 0 buf =
        ⟨.MEMORY_ALLOCATION_FAILURE, buf, [],
          some (dhScratchSize env pkPrivate.pDlgroup), none⟩) := by
  refine ⟨?_, fun h5 => ?_, fun h5 => ?_⟩
  · cases h5 : env.allocOk
    · rw [dh_alloc_failure_eq env pkPrivate pkPublic format buf h2 h3 h4 h5]
    · rw [dh_happy_path env pkPrivate pkPublic format buf h2 h3 h4 h5]
      split <;> rfl
  · rw [dh_happy_path env pkPrivate pkPublic format buf h2 h3 h4 h5]
    split <;> simp [dhCleanupTrace, MemEvent.isAlloc]
  · exact dh_alloc_failure_eq env pkPrivate pkPublic format buf h2 h3 h4 h5

/-- C9: when the output-encoding primitive reports a non-success status,
the call returns exactly that status, unmasked and unremapped, and the
cleanup (full wipe, then free) still runs. -/
theorem C9_encoding_error_propagated (env : DhEnv)
    (pkPrivate pkPublic : SYMCRYPT_DLKEY) (format : SYMCRYPT_NUMBER_FORMAT)
    (buf : List Nat) (e : SYMCRYPT_ERROR)
    (h2 : pkPrivate.fHasPrivateKey = true)
    (h3 : pkPrivate.pDlgroup = pkPublic.pDlgroup)
    (h4 : buf.length = SymCryptDlkeySizeofPublicKey pkPrivate)
    (h5 : env.allocOk = true)
    (hnz : dhSecretValue pkPrivate pkPublic ≠ 0)
    (he : (env.getValue pkPrivate.pDlgroup.P (dhSecretValue pkPrivate pkPublic)
        format buf.length).1 = e)
    (hee : e ≠ .NO_ERROR) :
    (SymCryptDhSecretAgreement env pkPrivate pkPublic format 0 buf).scError = e ∧
    (SymCryptDhSecretAgreement env pkPrivate pkPublic format 0 buf).trace =
      dhCleanupTrace (dhScratchSize env pkPrivate.pDlgroup) := by
  rw [dh_happy_path env pkPrivate pkPublic format buf h2 h3 h4 h5]
  simp [SymCryptModElementIsZero, hnz, he]

/-- C10: the validation checks run in a fixed precedence order — flags and
private-key presence first, then group identity, then destination size — so
a call violating several preconditions at once gets the status of the
earliest violated check: non-zero flags (or a missing private exponent)
always yields `INVALID_ARGUMENT` even when the buffer size is also wrong,
group mismatch yields `INVALID_ARGUMENT` whatever the buffer size, and
`WRONG_BLOCK_SIZE` is returned only once all earlier checks pass. -/
theorem C10_validation_precedence (env : DhEnv)
    (pkPrivate pkPublic : SYMCRYPT_DLKEY) (format : SYMCRYPT_NUMBER_FORMAT)
    (flags : Nat) (buf : List Nat) :
    ((flags ≠ 0 ∨ pkPrivate.fHasPrivateKey = false) →
      (SymCryptDhSecretAgreement env pkPrivate pkPublic format flags buf).scError =
        .INVALID_ARGUMENT) ∧
    (pkPrivate.pDlgroup ≠ pkPublic.pDlgroup →
      (SymCryptDhSecretAgreement env pkPrivate pkPublic format flags buf).scError =
        .INVALID_ARGUMENT) ∧
    (flags = 0 → pkPrivate.fHasPrivateKey = true →
      pkPrivate.pDlgroup = pkPublic.pDlgroup →
      buf.length ≠ SymCryptDlkeySizeofPublicKey pkPrivate →
      (SymCryptDhSecretAgreement env pkPrivate pkPublic format flags buf).scError =
        .WRONG_BLOCK_SIZE) := by
  refine ⟨fun h => ?_, fun h => ?_, fun h1 h2 h3 h4 => ?_⟩
  · rw [dh_flags_or_nopriv_eq env pkPrivate pkPublic format flags buf h]
  · rw [dh_group_mismatch_eq env pkPrivate pkPublic format flags buf h]
  · subst h1
    rw [dh_wrong_size_eq env pkPrivate pkPublic format buf h2 h3 h4]

/-- C8: for genuine DH counterparts over the same group — private exponents
`a` and `b` whose public elements are `g^a mod P` and `g^b mod P`, each
private exponent within its key's declared bit-length — two successful
agreement calls in the two directions, with the same format and matching
buffer lengths, produce byte-identical output. -/
theorem C8_agreement_commutes (env : DhEnv) (kA kB : SYMCRYPT_DLKEY)
    (format : SYMCRYPT_NUMBER_FORMAT) (bufA bufB : List Nat)
    (hG : kA.pDlgroup = kB.pDlgroup)
    (hPrivA : kA.fHasPrivateKey = true) (hPrivB : kB.fHasPrivateKey = true)
    (hpubA : kA.pePublicKey = kA.pDlgroup.G ^ kA.piPrivateKey % kA.pDlgroup.P)
    (hpubB : kB.pePublicKey = kB.pDlgroup.G ^ kB.piPrivateKey % kB.pDlgroup.P)
    (hfitA : kA.piPrivateKey < 2 ^ dhNBitsOfExp kA)
    (hfitB : kB.piPrivateKey < 2 ^ dhNBitsOfExp kB)
    (hlenA : bufA.length = SymCryptDlkeySizeofPublicKey kA)
    (hlenB : bufB.length = SymCryptDlkeySizeofPublicKey kB)
    (hok1 : (SymCryptDhSecretAgreement env kA kB format 0 bufA).scError = .NO_ERROR)
    (hok2 : (SymCryptDhSecretAgreement env kB kA format 0 bufB).scError = .NO_ERROR) :
    (SymCryptDhSecretAgreement env kA kB format 0 bufA).pbAgreedSecret =
      (SymCryptDhSecretAgreement env kB kA format 0 bufB).pbAgreedSecret := by
  cases h5 : env.allocOk
  · rw [dh_alloc_failure_eq env kA kB format bufA hPrivA hG hlenA h5] at hok1
    simp at hok1
  · have hsec : dhSecretValue kA kB = dhSecretValue kB kA := by
      unfold dhSecretValue SymCryptModExp
      rw [Nat.mod_eq_of_lt hfitA, Nat.mod_eq_of_lt hfitB, hpubA, hpubB, hG]
      exact dh_pow_comm kB.pDlgroup.P kB.pDlgroup.G kA.piPrivateKey kB.piPrivateKey
    have hlen : bufA.length = bufB.length := by
      rw [hlenA, hlenB]
      unfold SymCryptDlkeySizeofPublicKey
      rw [hG]
    rw [dh_happy_path env kA kB format bufA hPrivA hG hlenA h5] at hok1 ⊢
    rw [dh_happy_path env kB kA format bufB hPrivB hG.symm hlenB h5]
    rw [hG, hsec, hlen] at hok1 ⊢
    cases hzc : SymCryptModElementIsZero kB.pDlgroup.P (dhSecretValue kB kA)
    · simp [hzc]
    · simp [hzc] at hok1

theorem C1_witness :
    MemEvent.alloc 36 ∈
      (SymCryptDhSecretAgreement dhTestEnv dhTestKeyA dhTestKeyB .MSB_FIRST 0 [7]).trace ∧
    (SymCryptDhSecretAgreement dhTestEnv dhTestKeyA dhTestKeyB .MSB_FIRST 0 [7]).trace =
      [MemEvent.alloc 36, MemEvent.wipe 36, MemEvent.free (List.replicate 36 0)] :=
  ⟨by decide,
   (C1_scratch_wiped_on_all_paths dhTestEnv dhTestKeyA dhTestKeyB .MSB_FIRST 0 [7]).1
     36 (by decide)⟩

theorem C2_witness :
    (dhTestKeyA.fHasPrivateKey = true ∧ dhTestKeyA.pDlgroup = dhTestKeyB.pDlgroup ∧
     ([7] : List Nat).length = SymCryptDlkeySizeofPublicKey dhTestKeyA ∧
     dhTestEnv.allocOk = true) ∧
    (SymCryptDhSecretAgreement dhTestEnv dhTestKeyA dhTestKeyB .MSB_FIRST 0 [7]).nBitsOfExpUsed =
      some (if dhTestKeyA.fPrivateModQ then dhTestKeyA.nBitsPriv
            else dhTestKeyA.pDlgroup.nBitsOfP) ∧
    (SymCryptDhSecretAgreement dhTestEnv { dhTestKeyA with piPrivateKey := 3 }
        dhTestKeyB .MSB_FIRST 0 [7]).nBitsOfExpUsed =
      (SymCryptDhSecretAgreement dhTestEnv { dhTestKeyA with piPrivateKey := 9 }
        dhTestKeyB .MSB_FIRST 0 [7]).nBitsOfExpUsed :=
  ⟨⟨by decide, by decide, by decide, by decide⟩,
   (C2_exponent_bitlength_policy dhTestEnv dhTestKeyA dhTestKeyB .MSB_FIRST [7]
     (by decide) (by decide) (by decide) (by decide)).1,
   (C2_exponent_bitlength_policy dhTestEnv dhTestKeyA dhTestKeyB .MSB_FIRST [7]
     (by decide) (by decide) (by decide) (by decide)).2 3 9⟩

theorem C3_witness :
    (dhTestKeyA.fHasPrivateKey = true ∧ dhTestKeyA.pDlgroup = dhTestKeyZero.pDlgroup ∧
     ([7] : List Nat).length = SymCryptDlkeySizeofPublicKey dhTestKeyA ∧
     dhTestEnv.allocOk = true ∧ dhSecretValue dhTestKeyA dhTestKeyZero = 0) ∧
    (SymCryptDhSecretAgreement dhTestEnv dhTestKeyA dhTestKeyZero .MSB_FIRST 0 [7]).scError =
      .INVALID_BLOB ∧
    (SymCryptDhSecretAgreement dhTestEnv dhTestKeyA dhTestKeyZero .MSB_FIRST 0 [7]).pbAgreedSecret =
      [7] :=
  ⟨by decide,
   C3_zero_result_rejected dhTestEnv dhTestKeyA dhTestKeyZero .MSB_FIRST [7]
     (by decide) (by decide) (by decide) (by decide) (by decide)⟩

theorem C4_witness :
    ((1 : Nat) ≠ 0 ∨ dhTestKeyA.fHasPrivateKey = false) ∧
    SymCryptDhSecretAgreement dhTestEnv dhTestKeyA dhTestKeyB .MSB_FIRST 1 [7] =
      ⟨.INVALID_ARGUMENT, [7], [], none, none⟩ :=
  ⟨Or.inl (by decide),
   C4_flags_or_missing_private_key dhTestEnv dhTestKeyA dhTestKeyB .MSB_FIRST 1 [7]
     (Or.inl (by decide))⟩

theorem C5_witness :
    dhTestKeyA.pDlgroup ≠ dhTestKeyOtherGroup.pDlgroup ∧
    SymCryptDhSecretAgreement dhTestEnv dhTestKeyA dhTestKeyOtherGroup .MSB_FIRST 0 [7] =
      ⟨.INVALID_ARGUMENT, [7], [], none, none⟩ :=
  ⟨by decide,
   C5_group_mismatch dhTestEnv dhTestKeyA dhTestKeyOtherGroup .MSB_FIRST 0 [7] (by decide)⟩

theorem C6_witness :
    (dhTestKeyA.fHasPrivateKey = true ∧ dhTestKeyA.pDlgroup = dhTestKeyB.pDlgroup ∧
     ([7, 8] : List Nat).length ≠ SymCryptDlkeySizeofPublicKey dhTestKeyA) ∧
    SymCryptDhSecretAgreement dhTestEnv dhTestKeyA dhTestKeyB .MSB_FIRST 0 [7, 8] =
      ⟨.WRONG_BLOCK_SIZE, [7, 8], [], none, none⟩ :=
  ⟨by decide,
   C6_wrong_output_size dhTestEnv dhTestKeyA dhTestKeyB .MSB_FIRST [7, 8]
     (by decide) (by decide) (by decide)⟩

theorem C7_witness :
    (dhTestKeyA.fHasPrivateKey = true ∧ dhTestKeyA.pDlgroup = dhTestKeyB.pDlgroup ∧
     ([7] : List Nat).length = SymCryptDlkeySizeofPublicKey dhTestKeyA) ∧
    (SymCryptDhSecretAgreement dhTestEnv dhTestKeyA dhTestKeyB .MSB_FIRST 0 [7]).cbScratchRequested =
      some (dhScratchSize dhTestEnv dhTestKeyA.pDlgroup) ∧
    (dhTestEnv.allocOk = true →
      ((SymCryptDhSecretAgreement dhTestEnv dhTestKeyA dhTestKeyB .MSB_FIRST 0 [7]).trace.filter
        MemEvent.isAlloc) =
        [MemEvent.alloc (dhScratchSize dhTestEnv dhTestKeyA.pDlgroup)]) ∧
    (dhTestEnv.allocOk = false →
      SymCryptDhSecretAgreement dhTestEnv dhTestKeyA dhTestKeyB .MSB_FIRST 0 [7] =
        ⟨.MEMORY_ALLOCATION_FAILURE, [7], [],
          some (dhScratchSize dhTestEnv dhTestKeyA.pDlgroup), none⟩) :=
  ⟨by decide,
   C7_scratch_sizing_and_single_allocation dhTestEnv dhTestKeyA dhTestKeyB .MSB_FIRST [7]
     (by decide) (by decide) (by decide)⟩

theorem C8_witness :
    (dhTestKeyA.pDlgroup = dhTestKeyB.pDlgroup ∧
     dhTestKeyA.fHasPrivateKey = true ∧ dhTestKeyB.fHasPrivateKey = true ∧
     dhTestKeyA.pePublicKey =
       dhTestKeyA.pDlgroup.G ^ dhTestKeyA.piPrivateKey % dhTestKeyA.pDlgroup.P ∧
     dhTestKeyB.pePublicKey =
       dhTestKeyB.pDlgroup.G ^ dhTestKeyB.piPrivateKey % dhTestKeyB.pDlgroup.P ∧
     dhTestKeyA.piPrivateKey < 2 ^ dhNBitsOfExp dhTestKeyA ∧
     dhTestKeyB.piPrivateKey < 2 ^ dhNBitsOfExp dhTestKeyB ∧
     ([7] : List Nat).length = SymCryptDlkeySizeofPublicKey dhTestKeyA ∧
     ([9] : List Nat).length = SymCryptDlkeySizeofPublicKey dhTestKeyB ∧
     (SymCryptDhSecretAgreement dhTestEnv dhTestKeyA dhTestKeyB .MSB_FIRST 0 [7]).scError =
       .NO_ERROR ∧
     (SymCryptDhSecretAgreement dhTestEnv dhTestKeyB dhTestKeyA .MSB_FIRST 0 [9]).scError =
       .NO_ERROR) ∧
    (SymCryptDhSecretAgreement dhTestEnv dhTestKeyA dhTestKeyB .MSB_FIRST 0 [7]).pbAgreedSecret =
      (SymCryptDhSecretAgreement dhTestEnv dhTestKeyB dhTestKeyA .MSB_FIRST 0 [9]).pbAgreedSecret :=
  ⟨by decide,
   C8_agreement_commutes dhTestEnv dhTestKeyA dhTestKeyB .MSB_FIRST [7] [9]
     (by decide) (by decide) (by decide) (by decide) (by decide) (by decide)
     (by decide) (by decide) (by decide) (by decide) (by decide)⟩

theorem C9_witness :
    (dhTestKeyA.fHasPrivateKey = true ∧ dhTestKeyA.pDlgroup = dhTestKeyB.pDlgroup ∧
     ([7] : List Nat).length = SymCryptDlkeySizeofPublicKey dhTestKeyA ∧
     dhTestEnvBadFormat.allocOk = true ∧
     dhSecretValue dhTestKeyA dhTestKeyB ≠ 0 ∧
     (dhTestEnvBadFormat.getValue dhTestKeyA.pDlgroup.P
       (dhSecretValue dhTestKeyA dhTestKeyB) .MSB_FIRST ([7] : List Nat).length).1 =
       SYMCRYPT_ERROR.NOT_IMPLEMENTED ∧
     SYMCRYPT_ERROR.NOT_IMPLEMENTED ≠ SYMCRYPT_ERROR.NO_ERROR) ∧
    (SymCryptDhSecretAgreement dhTestEnvBadFormat dhTestKeyA dhTestKeyB .MSB_FIRST 0 [7]).scError =
      .NOT_IMPLEMENTED ∧
    (SymCryptDhSecretAgreement dhTestEnvBadFormat dhTestKeyA dhTestKeyB .MSB_FIRST 0 [7]).trace =
      dhCleanupTrace (dhScratchSize dhTestEnvBadFormat dhTestKeyA.pDlgroup) :=
  ⟨by decide,
   C9_encoding_error_propagated dhTestEnvBadFormat dhTestKeyA dhTestKeyB .MSB_FIRST [7]
     .NOT_IMPLEMENTED (by decide) (by decide) (by decide) (by decide) (by decide)
     (by decide) (by decide)⟩

theorem C10_witness :
    ((1 : Nat) ≠ 0 ∨ dhTestKeyA.fHasPrivateKey = false) ∧
    ([7, 8] : List Nat).length ≠ SymCryptDlkeySizeofPublicKey dhTestKeyA ∧
    (SymCryptDhSecretAgreement dhTestEnv dhTestKeyA dhTestKeyB .MSB_FIRST 1 [7, 8]).scError =
      .INVALID_ARGUMENT :=
  ⟨Or.inl (by decide), by decide,
   (C10_validation_precedence dhTestEnv dhTestKeyA dhTestKeyB .MSB_FIRST 1 [7, 8]).1
     (Or.inl (by decide))⟩

end SymCrypt
